import Mathlib

/-!
Verification of the llm-back feedback service (Python/FastAPI).

This file gives a shallow embedding, in Lean 4, of the parts of the
repository that the verified properties talk about:

* `src/deepseek_client.py` — the tool-orchestration loop
  (`chat_with_tools` / `_process_tools_autonomously`), the tool-request
  extraction (`_is_tool_request`, `_parse_tool_request`,
  `_parse_all_tool_requests`), the result classifier
  (`_llm_evaluate_result`) and the result-size truncation;
* `services/gateway_notification.py` — `GatewayNotificationService.send_update`;
* `services/streaming_agent.py` and `app.py` — the background supervisor
  (`_process_coordinador_feedback_async` wrapping
  `StreamingMCPAgent.run_with_streaming`) and the notifications it emits.

Python data is embedded as follows: JSON-like values become the inductive
type `Json` (with integer numerals standing for Python numbers); Python
strings become Lean `String` values, manipulated through executable
`List Char` functions so that every definition evaluates by kernel
reduction; the two LLM transports (primary model and classifier) and the
HTTP POST of the notifier are oracles: a call that may time out is a
function producing `Option String` (with `none` for the `None` that
`chat_completion` returns on any transport failure), and an HTTP POST is
an abstract `PostOutcome`.  Code that can raise is embedded with `Except`,
and the surrounding `try/except` handlers are explicit matches on the
`Except` value.
-/

namespace LlmBack

/-! ## Python string primitives

Executable counterparts of the Python string operations the client uses:
`in` (substring test), `str.strip`, `str.upper`, `str.lower`,
`str.split("\n")`, `str.find` / `str.rfind` and slicing.  All of them work
on `List Char` so that concrete evaluations reduce in the kernel; the
ASCII-only case conversion matches Python on the ASCII fragment that the
classifier tokens and the sentinel token live in.
-/

/-- Does the character list start with the given pattern? -/
def listStartsWith : List Char → List Char → Bool
  | _, [] => true
  | [], _ :: _ => false
  | c :: cs, p :: ps => c == p && listStartsWith cs ps

/-- Python `needle in hay` for strings: substring occurrence. -/
def listContains : List Char → List Char → Bool
  | hay, needle =>
    listStartsWith hay needle ||
      match hay with
      | [] => false
      | _ :: t => listContains t needle

/-- Python `needle in hay` on `String` values. -/
def strContains (hay needle : String) : Bool :=
  listContains hay.data needle.data

/-- Characters removed by Python `str.strip()` (the ASCII whitespace fragment). -/
def isPyWs (c : Char) : Bool :=
  c = ' ' || c = '\t' || c = '\n' || c = '\r' || c = Char.ofNat 11 || c = Char.ofNat 12

/-- Python `str.strip()` on character lists. -/
def stripChars (cs : List Char) : List Char :=
  ((cs.dropWhile isPyWs).reverse.dropWhile isPyWs).reverse

/-- Python `str.strip()`. -/
def pyStrip (s : String) : String := String.mk (stripChars s.data)

/-- ASCII upper-casing of one character, as Python `str.upper` acts on ASCII. -/
def asciiUpper (c : Char) : Char :=
  if 'a' ≤ c ∧ c ≤ 'z' then Char.ofNat (c.toNat - 32) else c

/-- ASCII lower-casing of one character, as Python `str.lower` acts on ASCII. -/
def asciiLower (c : Char) : Char :=
  if 'A' ≤ c ∧ c ≤ 'Z' then Char.ofNat (c.toNat + 32) else c

/-- Python `str.upper()` (ASCII fragment). -/
def pyUpper (s : String) : String := String.mk (s.data.map asciiUpper)

/-- Python `str.lower()` (ASCII fragment). -/
def pyLower (s : String) : String := String.mk (s.data.map asciiLower)

/-- Python `str.split("\n")` on character lists. -/
def splitLinesChars (cs : List Char) : List (List Char) :=
  match cs with
  | [] => [[]]
  | c :: rest =>
    let r := splitLinesChars rest
    if c = '\n' then [] :: r
    else
      match r with
      | [] => [[c]]
      | l :: ls => (c :: l) :: ls

/-- Python `response.split("\n")`. -/
def pySplitLines (s : String) : List String :=
  (splitLinesChars s.data).map String.mk

/-- Index of the first occurrence of a character (Python `str.find`, as an option). -/
def charsFind (cs : List Char) (c : Char) : Option Nat :=
  match cs with
  | [] => none
  | x :: rest => if x == c then some 0 else (charsFind rest c).map (· + 1)

/-- Index of the last occurrence of a character (Python `str.rfind`, as an option). -/
def charsRFind (cs : List Char) (c : Char) : Option Nat :=
  match cs with
  | [] => none
  | x :: rest =>
    match charsRFind rest c with
    | some i => some (i + 1)
    | none => if x == c then some 0 else none

/-- Python truthiness of a string: nonempty. -/
def pyStrTruthy (s : String) : Bool := !s.data.isEmpty

/-- Python truthiness of an optional string (`None` and `""` are falsy). -/
def pyOptTruthy : Option String → Bool
  | none => false
  | some s => pyStrTruthy s

/-! ## JSON values

The inductive `Json` embeds the Python values that flow through the
client: results of `json.loads`, tool results and the structures the code
builds from them.  Python numbers are restricted to integers: every
numeral the claims exercise is an integer, and nothing in the verified
code inspects numeric values.  `Json.obj` keeps its fields in Python dict
insertion order; the parser below resolves duplicate keys exactly as
`json.loads` does (last value wins, first position kept).
-/

inductive Json where
  | null
  | bool (b : Bool)
  | num (n : Int)
  | str (s : String)
  | arr (items : List Json)
  | obj (fields : List (String × Json))
deriving Repr, Inhabited

/-- Python `key in dict` for the embedded objects. -/
def hasKey (fields : List (String × Json)) (k : String) : Bool :=
  fields.any (fun p => p.1 == k)

/-- Dict lookup; fields produced by the parser have unique keys. -/
def lookupKey : List (String × Json) → String → Option Json
  | [], _ => none
  | (k', v) :: rest, k => if k' == k then some v else lookupKey rest k

/-- Insertion into a dict under Python semantics: an existing key keeps its
position and gets the new value, a new key is appended. -/
def objInsert (fields : List (String × Json)) (k : String) (v : Json) :
    List (String × Json) :=
  match fields with
  | [] => [(k, v)]
  | (k', v') :: rest =>
    if k' == k then (k', v) :: rest else (k', v') :: objInsert rest k v

/-! ## Serialization: `json.dumps`

Two serializers are modelled, because `_process_tools_autonomously` uses
both on the same value: `json.dumps(result, indent=2)` for the size check
and the preview, and plain `json.dumps(result)` for the recorded original
length.  String escaping covers the JSON escapes the repository exercises
(quote, backslash, newline, tab, carriage return); all other characters
are emitted verbatim, which agrees with Python on strings made of
printable characters.
-/

/-- JSON string escaping for one character (the fragment exercised here). -/
def escChar (c : Char) : List Char :=
  if c = '"' then ['\\', '"']
  else if c = '\\' then ['\\', '\\']
  else if c = '\n' then ['\\', 'n']
  else if c = '\t' then ['\\', 't']
  else if c = '\r' then ['\\', 'r']
  else [c]

/-- A JSON string literal: quoted and escaped. -/
def quoteChars (s : String) : List Char :=
  '"' :: (s.data.flatMap escChar) ++ ['"']

mutual
/-- Python `json.dumps(v)` with the default separators `", "` and `": "`. -/
def dumpsCChars : Json → List Char
  | .null => "null".data
  | .bool true => "true".data
  | .bool false => "false".data
  | .num n => (toString n).data
  | .str s => quoteChars s
  | .arr items => '[' :: dumpsCArr items ++ [']']
  | .obj fields => '{' :: dumpsCObj fields ++ ['}']
/-- Array items of the compact form, joined by `", "`. -/
def dumpsCArr : List Json → List Char
  | [] => []
  | [x] => dumpsCChars x
  | x :: y :: rest => dumpsCChars x ++ ", ".data ++ dumpsCArr (y :: rest)
/-- Object members of the compact form, joined by `", "`. -/
def dumpsCObj : List (String × Json) → List Char
  | [] => []
  | [(k, v)] => quoteChars k ++ ": ".data ++ dumpsCChars v
  | (k, v) :: p :: rest =>
    quoteChars k ++ ": ".data ++ dumpsCChars v ++ ", ".data ++ dumpsCObj (p :: rest)
end

/-- Indentation prefix used by `json.dumps(..., indent=2)` at a nesting level. -/
def indentChars (level : Nat) : List Char := List.replicate (2 * level) ' '

mutual
/-- Python `json.dumps(v, indent=2)`: items one per line, two spaces per
nesting level, item separator `","` plus newline, key separator `": "`,
empty containers printed as `[]` and `{}`. -/
def dumpsIChars : Nat → Json → List Char
  | _, .null => "null".data
  | _, .bool true => "true".data
  | _, .bool false => "false".data
  | _, .num n => (toString n).data
  | _, .str s => quoteChars s
  | _, .arr [] => "[]".data
  | level, .arr (x :: rest) =>
    '[' :: '\n' :: dumpsIArr (level + 1) (x :: rest) ++ '\n' :: indentChars level ++ [']']
  | _, .obj [] => "\x7b\x7d".data
  | level, .obj (p :: rest) =>
    '\x7b' :: '\n' :: dumpsIObj (level + 1) (p :: rest) ++ '\n' :: indentChars level ++ ['\x7d']
/-- Array items of the indented form. -/
def dumpsIArr : Nat → List Json → List Char
  | level, [] => indentChars level
  | level, [x] => indentChars level ++ dumpsIChars level x
  | level, x :: y :: rest =>
    indentChars level ++ dumpsIChars level x ++ ',' :: '\n' :: dumpsIArr level (y :: rest)
/-- Object members of the indented form. -/
def dumpsIObj : Nat → List (String × Json) → List Char
  | level, [] => indentChars level
  | level, [(k, v)] => indentChars level ++ quoteChars k ++ ": ".data ++ dumpsIChars level v
  | level, (k, v) :: p :: rest =>
    indentChars level ++ quoteChars k ++ ": ".data ++ dumpsIChars level v ++
      ',' :: '\n' :: dumpsIObj level (p :: rest)
end

/-! ## Python `str()` of parsed-JSON values

`_llm_evaluate_result` applies `str(result).lower()` in its two fallback
branches.  `str` of a Python structure built by `json.loads` prints dicts
and lists with their Python repr: single-quoted strings, `True` / `False`
/ `None`, `", "` and `": "` separators.  The model covers strings without
quote, backslash or control characters, which is the fragment the
indicator scan is applied to.
-/

/-- The apostrophe character used by the Python repr of strings. -/
def sq : Char := Char.ofNat 39

mutual
/-- Python `str(v)` for a value obtained from parsed JSON. -/
def pyReprChars : Json → List Char
  | .null => "None".data
  | .bool true => "True".data
  | .bool false => "False".data
  | .num n => (toString n).data
  | .str s => sq :: s.data ++ [sq]
  | .arr items => '[' :: pyReprArr items ++ [']']
  | .obj fields => '{' :: pyReprObj fields ++ ['}']
/-- List items of the Python repr, joined by `", "`. -/
def pyReprArr : List Json → List Char
  | [] => []
  | [x] => pyReprChars x
  | x :: y :: rest => pyReprChars x ++ ", ".data ++ pyReprArr (y :: rest)
/-- Dict members of the Python repr, joined by `", "`. -/
def pyReprObj : List (String × Json) → List Char
  | [] => []
  | [(k, v)] => sq :: k.data ++ sq :: ": ".data ++ pyReprChars v
  | (k, v) :: p :: rest =>
    sq :: k.data ++ sq :: ": ".data ++ pyReprChars v ++ ", ".data ++ pyReprObj (p :: rest)
end

/-- Python `str(v)` as a `String`. -/
def pyRepr (v : Json) : String := String.mk (pyReprChars v)

/-! ## Parsing: `json.loads`

A fuel-indexed recursive-descent parser for the JSON fragment the client
exchanges: the literals, integer numerals, strings with the basic
escapes, arrays and objects.  `json.loads` raises `JSONDecodeError` on
anything else — here the parser returns `none` — and accepts a document
only when the whole input is one JSON value surrounded by whitespace.
The fuel is the input length plus one; every recursive descent first
consumes at least one character, so the fuel never runs out on the
initial call made by `jsonLoads`.
-/

/-- Whitespace accepted between JSON tokens. -/
def isJsonWs (c : Char) : Bool := c = ' ' || c = '\t' || c = '\n' || c = '\r'

/-- Drop leading JSON whitespace. -/
def skipWs (cs : List Char) : List Char :=
  match cs with
  | c :: rest => if isJsonWs c then skipWs rest else cs
  | [] => []

/-- Decode one escape character of a JSON string literal (the escapes the
repository exchanges; the `\uXXXX` form is outside the modelled
fragment). -/
def unescapeChar (e : Char) : Option Char :=
  if e = 'n' then some '\n'
  else if e = 't' then some '\t'
  else if e = 'r' then some '\r'
  else if e = '"' || e = '\\' || e = '/' then some e
  else if e = 'b' then some (Char.ofNat 8)
  else if e = 'f' then some (Char.ofNat 12)
  else none

/-- Parse the body of a JSON string literal after the opening quote,
returning the decoded characters and the input after the closing quote. -/
def parseStringBody : List Char → Option (List Char × List Char)
  | [] => none
  | '"' :: rest => some ([], rest)
  | '\\' :: e :: rest =>
    (unescapeChar e).bind fun c =>
      (parseStringBody rest).map fun (p : List Char × List Char) => (c :: p.1, p.2)
  | c :: rest =>
    (parseStringBody rest).map fun (p : List Char × List Char) => (c :: p.1, p.2)

/-- Decimal digit value. -/
def digitVal (c : Char) : Option Nat :=
  if '0' ≤ c ∧ c ≤ '9' then some (c.toNat - 48) else none

/-- Parse a nonempty run of decimal digits. -/
def parseDigits : List Char → Nat → Option (Nat × List Char)
  | c :: rest, acc =>
    match digitVal c with
    | some d =>
      match parseDigits rest (acc * 10 + d) with
      | some r => some r
      | none => some (acc * 10 + d, rest)
    | none => none
  | [], _ => none

mutual
/-- Parse one JSON value: the three keyword literals, then strings,
numbers, arrays and objects by their leading character. -/
def parseValue : Nat → List Char → Option (Json × List Char)
  | 0, _ => none
  | fuel + 1, cs =>
    let cs' := skipWs cs
    if listStartsWith cs' "null".data then some (.null, cs'.drop 4)
    else if listStartsWith cs' "true".data then some (.bool true, cs'.drop 4)
    else if listStartsWith cs' "false".data then some (.bool false, cs'.drop 5)
    else
      match cs' with
      | '"' :: rest => (parseStringBody rest).map fun p => (.str (String.mk p.1), p.2)
      | '-' :: rest => (parseDigits rest 0).map fun p => (.num (-(p.1 : Int)), p.2)
      | '[' :: rest => parseElemsStart fuel rest
      | '{' :: rest => parseMembersStart fuel rest
      | other => (parseDigits other 0).map fun p => (.num (p.1 : Int), p.2)
/-- Parse an array after the opening bracket. -/
def parseElemsStart : Nat → List Char → Option (Json × List Char)
  | 0, _ => none
  | fuel + 1, cs =>
    match skipWs cs with
    | ']' :: rest => some (.arr [], rest)
    | other => parseElems fuel other []
/-- Parse the remaining items of a nonempty array. -/
def parseElems : Nat → List Char → List Json → Option (Json × List Char)
  | 0, _, _ => none
  | fuel + 1, cs, acc =>
    match parseValue fuel cs with
    | none => none
    | some (v, rest) =>
      match skipWs rest with
      | ',' :: rest' => parseElems fuel rest' (acc ++ [v])
      | ']' :: rest' => some (.arr (acc ++ [v]), rest')
      | _ => none
/-- Parse an object after the opening brace. -/
def parseMembersStart : Nat → List Char → Option (Json × List Char)
  | 0, _ => none
  | fuel + 1, cs =>
    match skipWs cs with
    | '}' :: rest => some (.obj [], rest)
    | other => parseMembers fuel other []
/-- Parse the remaining members of a nonempty object. -/
def parseMembers : Nat → List Char → List (String × Json) → Option (Json × List Char)
  | 0, _, _ => none
  | fuel + 1, cs, acc =>
    match skipWs cs with
    | '"' :: rest =>
      match parseStringBody rest with
      | none => none
      | some (k, rest') =>
        match skipWs rest' with
        | ':' :: rest'' =>
          match parseValue fuel rest'' with
          | none => none
          | some (v, rest3) =>
            let acc' := objInsert acc (String.mk k) v
            match skipWs rest3 with
            | ',' :: rest4 => parseMembers fuel rest4 acc'
            | '}' :: rest4 => some (.obj acc', rest4)
            | _ => none
        | _ => none
    | _ => none
end

/-- Python `json.loads` on a character list: one JSON document, nothing
but whitespace around it. -/
def jsonLoadsChars (cs : List Char) : Option Json :=
  match parseValue (cs.length + 1) cs with
  | some (v, rest) => if (skipWs rest).isEmpty then some v else none
  | none => none

/-- Python `json.loads`. -/
def jsonLoads (s : String) : Option Json := jsonLoadsChars s.data

/-! ## Python `in` and indexing on arbitrary parsed values

`_parse_all_tool_requests` and `_parse_tool_request` evaluate
`"tool_request" in parsed` and `parsed["tool_request"]` on whatever
`json.loads` produced.  In Python, `in` is key membership on dicts,
element membership on lists, substring occurrence on strings, and a
`TypeError` on numbers, booleans and `None`; subscripting with a string
key succeeds only on dicts (a `KeyError` when the key is absent) and is a
`TypeError` otherwise.  The `Except Unit` error channel stands for those
raised exceptions. -/

/-- Python `"needle" in v` for a parsed JSON value `v`. -/
def pyIn (needle : String) (v : Json) : Except Unit Bool :=
  match v with
  | .obj fields => .ok (hasKey fields needle)
  | .arr items =>
    .ok (items.any fun x =>
      match x with
      | .str s => s == needle
      | _ => false)
  | .str s => .ok (strContains s needle)
  | _ => .error ()

/-- Python `v["key"]` for a parsed JSON value `v`. -/
def pyIndex (v : Json) (key : String) : Except Unit Json :=
  match v with
  | .obj fields =>
    match lookupKey fields key with
    | some x => .ok x
    | none => .error ()
  | _ => .error ()

/-! ## Tool request extraction — `deepseek_client.py` lines 402-477 -/

/-- `DeepSeekClient._is_tool_request` (lines 402-408): the response looks
like a tool request when it contains the substring `"tool_request"`
together with both brace characters, or contains a fenced block opener
tagged `json`. -/
def is_tool_request (response : String) : Bool :=
  (strContains response "tool_request" && strContains response "\x7b" &&
      strContains response "\x7d") ||
    strContains response "```json"

/-- The loop may reach `_is_tool_request` with `current_response = None`;
the `in` test then raises `TypeError`, the bare `except` of the method
catches it and the method returns `False`. -/
def isToolRequestOpt : Option String → Bool
  | none => false
  | some s => is_tool_request s

/-- `DeepSeekClient._parse_tool_request` (lines 410-423): slice from the
first `"\x7b"` to the last `"\x7d"`, `json.loads` the slice, and return the
nested `tool_request` value when the membership test succeeds.  The
enclosing `try` has a bare `except`, so every failure — decode error,
`TypeError` from the membership test or from the subscript — yields
`None`. -/
def parse_tool_request (response : String) : Option Json :=
  let cs := response.data
  match charsFind cs '{', charsRFind cs '}' with
  | some start, some stop =>
    if start < stop + 1 then
      let jsonStr := (cs.drop start).take (stop + 1 - start)
      match jsonLoadsChars jsonStr with
      | none => none
      | some v =>
        match pyIn "tool_request" v with
        | .ok true =>
          match pyIndex v "tool_request" with
          | .ok req => some req
          | .error _ => none
        | _ => none
    else none
  | _, _ => none

/-- Outcome of closing one fenced block inside `_parse_all_tool_requests`
(lines 443-449): either the accumulator after the block (skipped, or with
one request appended), or an abort carrying the accumulator when the
block raised an exception that only the outer handler catches.  The inner
`except` catches exactly `json.JSONDecodeError`; a block that decodes to
a non-dict on which the membership test or the subscript raises
`TypeError` escapes to the outer handler, which returns the requests
collected so far. -/
def m1ProcessBlock (content : String) (acc : List Json) :
    Except (List Json) (List Json) :=
  if (pyStrip content).data.isEmpty then .ok acc
  else
    match jsonLoads (pyStrip content) with
    | none => .ok acc
    | some v =>
      match pyIn "tool_request" v with
      | .error _ => .error acc
      | .ok false => .ok acc
      | .ok true =>
        match pyIndex v "tool_request" with
        | .error _ => .error acc
        | .ok req => .ok (acc ++ [req])

/-- The line scan of method 1 of `_parse_all_tool_requests` (lines
430-452): a line containing ```` ```json ```` (case-insensitively) opens a
fresh block, a line containing ```` ``` ```` while inside a block closes
and processes it, lines inside a block are accumulated with a trailing
newline, all other lines are ignored.  An unclosed block at the end of
input is dropped. -/
def m1Lines : List String → Bool → String → List Json → Except (List Json) (List Json)
  | [], _, _, acc => .ok acc
  | line :: rest, inJson, cur, acc =>
    if strContains (pyLower line) "```json" then m1Lines rest true "" acc
    else if strContains line "```" && inJson then
      match m1ProcessBlock cur acc with
      | .error acc' => .error acc'
      | .ok acc' => m1Lines rest false "" acc'
    else if inJson then m1Lines rest inJson (cur ++ line ++ "\n") acc
    else m1Lines rest inJson cur acc

/-- The fenced blocks that the method-1 scan closes, in source order. -/
def fencedBlocksAux : List String → Bool → String → List String
  | [], _, _ => []
  | line :: rest, inJson, cur =>
    if strContains (pyLower line) "```json" then fencedBlocksAux rest true ""
    else if strContains line "```" && inJson then cur :: fencedBlocksAux rest false ""
    else if inJson then fencedBlocksAux rest inJson (cur ++ line ++ "\n")
    else fencedBlocksAux rest inJson cur

/-- The fenced blocks of a response. -/
def fencedBlocks (response : String) : List String :=
  fencedBlocksAux (pySplitLines response) false ""

/-- The request one fenced block contributes: its stripped content must
decode to a dict containing the key `tool_request`; the nested value is
taken as the request. -/
def blockRequest (content : String) : Option Json :=
  match jsonLoads (pyStrip content) with
  | some (.obj fields) => lookupKey fields "tool_request"
  | _ => none

/-- Does a block either fail to decode or decode to a dict?  On such
blocks the method-1 scan never aborts. -/
def blockDecodesToObjOrFails (content : String) : Bool :=
  match jsonLoads (pyStrip content) with
  | some (.obj _) => true
  | some _ => false
  | none => true

/-- One match of the regex `\x7b(?:[^\x7b\x7d]|\x7b[^\x7b\x7d]*\x7d)*\x7d`
starting at the head of the input, which must be an opening brace already
consumed by the caller: walk the body; a closing brace ends the match, an
opening brace must be followed by brace-free characters and a closing
brace, any other character is kept.  The regex alternation is
deterministic for this pattern — no backtracking choice ever succeeds
where this scan fails — so the scan computes exactly the regex match. -/
def matchObjBody : Nat → List Char → List Char → Option (List Char × List Char)
  | 0, _, _ => none
  | _ + 1, [], _ => none
  | fuel + 1, c :: rest, acc =>
    if c = '}' then some (acc ++ ['}'], rest)
    else if c = '{' then
      let inner := rest.takeWhile fun d => !(d = '{' || d = '}')
      match rest.drop inner.length with
      | '}' :: rest' => matchObjBody fuel rest' (acc ++ '{' :: inner ++ ['}'])
      | _ => none
    else matchObjBody fuel rest (acc ++ [c])

/-- `re.findall` of the object regex over the whole response (method 2 of
`_parse_all_tool_requests`, lines 455-458): scan left to right, emit each
match and resume after it, otherwise advance one character. -/
def findAllObjects : Nat → List Char → List (List Char)
  | 0, _ => []
  | _ + 1, [] => []
  | fuel + 1, c :: rest =>
    if c = '{' then
      match matchObjBody (rest.length + 1) rest ['{'] with
      | some (m, rest') => m :: findAllObjects fuel rest'
      | none => findAllObjects fuel rest
    else findAllObjects fuel rest

/-- Method 2 of `_parse_all_tool_requests` (lines 454-466): parse every
regex match and keep the nested `tool_request` of those that decode to a
dict containing it.  A match always starts with an opening brace, so a
successful `json.loads` can only produce a dict; the `TypeError` cases of
the membership test are unreachable here and the per-match `except`
clause only ever sees decode errors. -/
def m2Requests (response : String) : List Json :=
  (findAllObjects (response.data.length + 1) response.data).filterMap fun m =>
    match jsonLoadsChars m with
    | some (.obj fields) =>
      if hasKey fields "tool_request" then lookupKey fields "tool_request" else none
    | _ => none

/-- `DeepSeekClient._parse_all_tool_requests` (lines 425-477): method 1
scans fenced ```` ```json ```` blocks; if it collected nothing, method 2
scans the whole text with the object regex; if still nothing, method 3
falls back to `_parse_tool_request`.  When method 1 aborts with an
exception, the outer handler returns whatever had been collected and the
later methods never run. -/
def parse_all_tool_requests (response : String) : List Json :=
  match m1Lines (pySplitLines response) false "" [] with
  | .error acc => acc
  | .ok acc =>
    if acc.isEmpty then
      let m2 := m2Requests response
      if m2.isEmpty then
        match parse_tool_request response with
        | some req => [req]
        | none => []
      else m2
    else acc

/-! ## Result classification — `_llm_evaluate_result`, lines 479-527 -/

/-- The `tool_request` fields the evaluation prompt interpolates; building
the prompt raises (`TypeError` or `KeyError`) exactly when the request is
not a dict with both `tool_name` and `arguments`. -/
def wellFormedToolRequest (tr : Json) : Bool :=
  match tr with
  | .obj fields => hasKey fields "tool_name" && hasKey fields "arguments"
  | _ => false

/-- The manual fallback of lines 516-520, used when the classification
call returns nothing: only dict results can be errors, and only when they
contain the key `error`, or `"missing"` or `"not found"` occurs in their
lower-cased `str()`. -/
def manualFallback (result : Json) : Bool :=
  match result with
  | .obj fields =>
    hasKey fields "error" || strContains (pyLower (pyRepr result)) "missing" ||
      strContains (pyLower (pyRepr result)) "not found"
  | _ => false

/-- The eight error-indicating substrings of the exception fallback
(line 526). -/
def errorIndicators : List String :=
  ["error", "missing", "not found", "denied", "forbidden", "invalid", "failed", "unable"]

/-- The exception fallback of lines 522-527: scan the lower-cased `str()`
of the result for any of the eight indicators. -/
def errorScanFallback (result : Json) : Bool :=
  errorIndicators.any fun ind => strContains (pyLower (pyRepr result)) ind

/-- `DeepSeekClient._llm_evaluate_result` (lines 479-527).  The reply of
the classification call is the oracle argument: `none` models the `None`
that `chat_completion` returns on any transport failure.  When the prompt
interpolation raises (malformed request), the handler applies the
eight-indicator scan; when the reply is falsy (absent or empty), the
manual fallback runs; otherwise the reply is stripped, upper-cased, and
the result is an error exactly when `"ERROR"` occurs in it. -/
def llm_evaluate_result (tr result : Json) (reply : Option String) : Bool :=
  if wellFormedToolRequest tr then
    match reply with
    | some r =>
      if pyStrTruthy r then strContains (pyUpper (pyStrip r)) "ERROR"
      else manualFallback result
    | none => manualFallback result
  else errorScanFallback result

/-! ## Result-size truncation — `_process_tools_autonomously`, lines 190-194 -/

/-- The literal marker appended to a truncated preview. -/
def truncMarker : String := "\n... (resultado truncado por tamaño)"

/-- Lines 190-194: serialize the result with `indent=2`; when the
serialization exceeds 5000 characters, replace the stored result by a
dict holding the 5000-character preview plus the marker, and the length
of the plain (default-separator) serialization of the original result. -/
def limit_tool_result (result : Json) : Json :=
  let resultStr := dumpsIChars 0 result
  if resultStr.length > 5000 then
    Json.obj
      [("truncated_result", Json.str (String.mk (resultStr.take 5000 ++ truncMarker.data))),
       ("original_length", Json.num ((dumpsCChars result).length : Int))]
  else result

/-! ## The orchestration loop — `_process_tools_autonomously`, lines 150-334

The loop is embedded against an oracle for its three kinds of model
calls: the per-execution classification verdict (the boolean that
`_llm_evaluate_result` resolves to), the reply of the follow-up call each
iteration issues (`none` for a transport failure), and the reply of the
simplified-retry call of lines 316-331.  Which follow-up template is
built (corrective, lighter, or alternative-strategy) is computed from the
classifications exactly as the source does and passed to the oracle, so
that the oracle may answer differently per template.  Only the while loop
is modelled; the final-answer synthesis of lines 336-400 follows the loop
and does not affect the iteration count, the retry behaviour or the
conversation history. -/

/-- The three follow-up templates of lines 219-311. -/
inductive FollowUpKind where
  | corrective
  | moreTools
  | alternative
deriving Repr, DecidableEq

/-- Oracle for the model calls the loop issues.  `classify k` is the
verdict for the `k`-th tool execution of the session (counted across
iterations); `followUp i kind` is the reply to the follow-up sent at the
end of iteration `i`; `retryCall i` is the reply to the simplified retry
of lines 316-331, kept in the model so that its unreachability is a
provable statement rather than a modelling choice. -/
structure LoopOracle where
  classify : Nat → Bool
  followUp : Nat → FollowUpKind → Option String
  retryCall : Nat → Option String

/-- State of the loop at exit. -/
structure LoopResult where
  iterations : Nat
  retriesAttempted : Nat
  toolCalls : Nat
  final : Option String
deriving Repr

/-- The follow-up template selection of lines 219, 266 and 289: errors
present with budget remaining picks the corrective template; otherwise
any success picks the lighter template; otherwise the
alternative-strategy template. -/
def followUpKindOf (verdicts : List Bool) (iteration' maxIterations : Nat) : FollowUpKind :=
  if verdicts.any id && decide (iteration' < maxIterations) then FollowUpKind.corrective
  else if verdicts.any (fun b => !b) then FollowUpKind.moreTools
  else FollowUpKind.alternative

/-- What one round does after its follow-up call returns `resp`: exit the
loop or continue with a response. -/
inductive LoopStep where
  | exit (result : LoopResult)
  | goOn (retries : Nat) (cur : Option String)
deriving Repr

/-- Lines 313-334: break when the follow-up reply is falsy or contains
the sentinel; otherwise, when the reply is `None` and budget remains
(lines 316-331), issue the simplified retry, breaking if it is falsy too;
otherwise continue the while loop with the reply in hand.  The
simplified-retry branch is kept exactly as the source writes it; that it
can never run is proved below, not assumed. -/
def afterFollowUp (maxIterations iteration' tools' retries : Nat)
    (resp retryReply : Option String) : LoopStep :=
  if !pyOptTruthy resp ||
      (match resp with
       | some r => strContains (pyUpper r) "LISTO"
       | none => false) then
    .exit { iterations := iteration', retriesAttempted := retries, toolCalls := tools',
            final := resp }
  else if resp.isNone && decide (iteration' < maxIterations) then
    if !pyOptTruthy retryReply then
      .exit { iterations := iteration', retriesAttempted := retries + 1,
              toolCalls := tools', final := retryReply }
    else .goOn (retries + 1) retryReply
  else .goOn retries resp

/-- The while loop of lines 167-334, with `fuel` a structural bound kept
equal to `maxIterations - iteration` by every caller, so that the
fuel-exhaustion case coincides with the failing while condition.  Each
round: re-check the while condition; increment the counter; extract the
requests (an empty extraction breaks); execute and classify each request
through the oracle; pick the follow-up template from the partition of the
verdicts; send the follow-up; then break, retry or continue as
`afterFollowUp` decides. -/
def runLoopAux (o : LoopOracle) (maxIterations : Nat) :
    Nat → Nat → Nat → Nat → Option String → LoopResult
  | 0, iteration, tools, retries, cur =>
    { iterations := iteration, retriesAttempted := retries, toolCalls := tools, final := cur }
  | fuel + 1, iteration, tools, retries, cur =>
    if decide (iteration < maxIterations) && isToolRequestOpt cur then
      let iteration' := iteration + 1
      let reqs := parse_all_tool_requests (cur.getD "")
      if reqs.isEmpty then
        { iterations := iteration', retriesAttempted := retries, toolCalls := tools,
          final := cur }
      else
        let verdicts := (List.range reqs.length).map fun k => o.classify (tools + k)
        let tools' := tools + reqs.length
        let resp := o.followUp iteration' (followUpKindOf verdicts iteration' maxIterations)
        match afterFollowUp maxIterations iteration' tools' retries resp
            (o.retryCall iteration') with
        | .exit result => result
        | .goOn retries' cur' => runLoopAux o maxIterations fuel iteration' tools' retries' cur'
    else
      { iterations := iteration, retriesAttempted := retries, toolCalls := tools, final := cur }

/-- `_process_tools_autonomously` as called from `chat_with_tools`
(line 146): budget 10, counter starting at 0, the first model response
already in hand. -/
def runLoop (o : LoopOracle) (response : String) : LoopResult :=
  runLoopAux o 10 10 0 0 0 (some response)

/-! ## The progress notifier — `gateway_notification.py`, lines 36-81

`send_update` performs one HTTP POST through a lazily created client.
The transport outcome is abstract: a response with some status code, a
timeout, or any other transport error.  The body of the `try` block is
embedded as an `Except` value — `response.raise_for_status()` raises
`HTTPStatusError` on a non-2xx status — and the three `except` clauses
(`httpx.TimeoutException`, `httpx.HTTPStatusError`, bare `Exception`)
each turn the raised value into `False`.  Building the
`LLMStreamingRequest` payload and obtaining the client cannot raise, so
the totality of the resulting `PostOutcome → Bool` function is exactly
the never-raises guarantee of the method. -/

/-- Outcome of the HTTP POST issued by `send_update`. -/
inductive PostOutcome where
  | response (code : Nat)
  | timeout
  | connectionError
deriving Repr, DecidableEq

/-- The exceptions the `try` block of `send_update` can raise. -/
inductive HttpxError where
  | timeoutExc
  | statusError (code : Nat)
  | otherError
deriving Repr, DecidableEq

/-- The body of the `try` block (lines 52-71): post, raise for a
non-success status, return `True`. -/
def send_update_attempt (o : PostOutcome) : Except HttpxError Bool :=
  match o with
  | .response code =>
    if 200 ≤ code ∧ code ≤ 299 then .ok true else .error (.statusError code)
  | .timeout => .error .timeoutExc
  | .connectionError => .error .otherError

/-- `GatewayNotificationService.send_update` (lines 36-81): the `try`
body with its three handlers, every one of which returns `False`. -/
def send_update (o : PostOutcome) : Bool :=
  match send_update_attempt o with
  | .ok delivered => delivered
  | .error .timeoutExc => false
  | .error (.statusError _) => false
  | .error .otherError => false

/-! ## The background supervisor — `app.py` lines 284-333 with
`streaming_agent.py` lines 55-108 and `feedback_general.py` lines 133-172

One background session execution is embedded as the list of notifications
it attempts, in order, as a function of two outcomes: whether service
initialization (`FeedbackGeneralService._initialize`) succeeds, and
whether the wrapped agent run (`MCPAgent.run`) returns a result or
raises.  `send_update` never raises (see above), so every attempted
notification simply appends to the trace; the delivery boolean is ignored
by all callers.  The log-handler notifications that
`MCPLogHandler.emit` schedules are always non-terminal
(`is_complete=False`) and are omitted from the trace, which only serves
the terminal-notification counting.

One fact of the source matters on the failure path:
`GatewayNotificationService` defines no `send_error_update` method, so
the call to it in the `except` clause of `feedback_coordinador_streaming`
(line 166) raises `AttributeError` before the `raise` statement is
reached; the supervisor in `app.py` catches that exception like any
other. -/

/-- One attempted notification: its status string and terminal flag, plus
the message it carries. -/
structure Notification where
  status : String
  message : String
  isComplete : Bool
deriving Repr, DecidableEq

/-- `StreamingMCPAgent.run_with_streaming` (lines 55-108): an initial
`processing` update; on success a terminal update with the result; on an
agent exception a terminal update carrying the exception text — with
status `completed`, as line 102 writes it — followed by re-raising. -/
def run_with_streaming (agent : Except String String) :
    List Notification × Except String String :=
  let initialNote : Notification :=
    { status := "processing", message := "🚀 Iniciando análisis...", isComplete := false }
  match agent with
  | .ok result =>
    ([initialNote, { status := "completed", message := result, isComplete := true }], .ok result)
  | .error e =>
    ([initialNote, { status := "completed", message := e, isComplete := true }], .error e)

/-- `FeedbackGeneralService.feedback_coordinador_streaming` (lines
133-172).  `_initialize` is awaited before the `try` block, so its
failure propagates directly with no notification.  When the streaming run
raises, the `except` clause calls the nonexistent `send_error_update`,
which raises `AttributeError` in place of the original exception and adds
no notification. -/
def feedback_coordinador_streaming (initOutcome : Except String Unit)
    (agent : Except String String) : List Notification × Except String String :=
  match initOutcome with
  | .error e => ([], .error e)
  | .ok _ =>
    match run_with_streaming agent with
    | (notes, .ok result) => (notes, .ok result)
    | (notes, .error _) =>
      (notes, .error "AttributeError: GatewayNotificationService has no attribute send_error_update")

/-- `app._process_coordinador_feedback_async` (lines 284-333): run the
streaming pipeline; on success send one more `completed` terminal update
with the result; on any exception send an `error` terminal update with
the exception text.  The `finally` block releases the service and sends
nothing. -/
def process_coordinador_feedback_async (initOutcome : Except String Unit)
    (agent : Except String String) : List Notification :=
  match feedback_coordinador_streaming initOutcome agent with
  | (notes, .ok result) =>
    notes ++ [{ status := "completed", message := result, isComplete := true }]
  | (notes, .error e) =>
    notes ++ [{ status := "error", message := e, isComplete := true }]

/-- Number of terminal notifications (`isComplete = true`) in a trace. -/
def terminalCount (notes : List Notification) : Nat :=
  (notes.filter fun n => n.isComplete).length

/-! ## Conversation-history framing — `chat_with_tools`, lines 87-148 and
`_process_tools_autonomously`, lines 229-379

The caller passes `conversation_history`, a Python list shared by
reference.  To state that the session never mutates it, the lists in
flight are embedded in a small heap: a store of message lists addressed
by allocation index.  `list.copy()` allocates a fresh index holding the
same elements; `list.append` mutates one index in place.  The session
performs exactly these list operations on histories: `chat_with_tools`
copies the caller list (line 97) and appends the capability preamble and
the user message to the copy (lines 128-136); each loop iteration copies
`messages` into `follow_up_messages` and appends two messages (corrective
and lighter templates, lines 229-234 and 270-275) or one (alternative
template, lines 295-297); the final synthesis copies `messages` once more
and appends one message (lines 360-379).  Message contents are arbitrary
parameters — they do not affect which list is mutated.  Nothing in the
source mutates a message dict, so messages are embedded as immutable
role/content pairs. -/

/-- One chat message: role and content. -/
abbrev Msg := String × String

/-- The heap of Python lists in flight: index `r` of the store is the
list that allocation number `r` currently holds. -/
structure Heap where
  store : List (List Msg)
deriving Repr, DecidableEq

/-- Replace index `r` of a store. -/
def setStore : List (List Msg) → Nat → List Msg → List (List Msg)
  | [], _, _ => []
  | _ :: rest, 0, v => v :: rest
  | x :: rest, r + 1, v => x :: setStore rest r v

/-- Read a reference. -/
def readRef (h : Heap) (r : Nat) : List Msg := h.store.getD r []

/-- Allocate a fresh list, returning its reference. -/
def alloc (h : Heap) (l : List Msg) : Nat × Heap :=
  (h.store.length, ⟨h.store ++ [l]⟩)

/-- Python `src.copy()`: allocate a fresh list with the same elements. -/
def copyRef (h : Heap) (src : Nat) : Nat × Heap := alloc h (readRef h src)

/-- Python `lst.append(m)`: mutate one list in place. -/
def appendRef (h : Heap) (r : Nat) (m : Msg) : Heap :=
  ⟨setStore h.store r (readRef h r ++ [m])⟩

/-- The messages one follow-up construction appends to its fresh copy of
`messages`: an assistant note and a user prompt for the corrective and
lighter templates, a single user prompt for the alternative-strategy
template. -/
def followUpAppends (kind : FollowUpKind) (assistantMsg userMsg : Msg) : List Msg :=
  match kind with
  | .corrective => [assistantMsg, userMsg]
  | .moreTools => [assistantMsg, userMsg]
  | .alternative => [userMsg]

/-- The per-iteration list operations of the loop: copy `messages`, then
append the template messages to the copy. -/
def runFollowUps (h : Heap) (messagesRef : Nat) :
    List (FollowUpKind × Msg × Msg) → Heap
  | [] => h
  | (kind, assistantMsg, userMsg) :: rest =>
    let (followRef, h1) := copyRef h messagesRef
    let h2 := (followUpAppends kind assistantMsg userMsg).foldl
      (fun hh m => appendRef hh followRef m) h1
    runFollowUps h2 messagesRef rest

/-- The list operations of one `chat_with_tools` session on the heap:
copy the caller history into `messages`; append the system preamble (when
tools are available) and the user message; run the per-iteration
follow-up constructions; optionally copy once more for the final
synthesis and append its prompt. -/
def chat_with_tools_heap (h0 : Heap) (historyRef : Nat) (toolsAvailable : Bool)
    (sysMsg userMsg : Msg) (iters : List (FollowUpKind × Msg × Msg))
    (finalMsg : Option Msg) : Heap :=
  let (messagesRef, h1) := copyRef h0 historyRef
  let h2 := if toolsAvailable then appendRef h1 messagesRef sysMsg else h1
  let h3 := appendRef h2 messagesRef userMsg
  let h4 := runFollowUps h3 messagesRef iters
  match finalMsg with
  | none => h4
  | some m =>
    let (finalRef, h5) := copyRef h4 messagesRef
    appendRef h5 finalRef m

/-! ## Definitions taken from the wording of the specification

These definitions follow the words of the spec, not the source; they
exist only to be compared against the source-derived definitions
above. -/

/-- Modelled from the spec: "balanced braces".  A scan of the brace
characters in which the nesting depth never goes negative and returns to
zero at the end. -/
def bracesBalancedAux : List Char → Nat → Bool
  | [], depth => depth == 0
  | c :: rest, depth =>
    if c = '{' then bracesBalancedAux rest (depth + 1)
    else if c = '}' then
      match depth with
      | 0 => false
      | d + 1 => bracesBalancedAux rest d
    else bracesBalancedAux rest depth

/-- Modelled from the spec: a string has balanced braces. -/
def bracesBalanced (s : String) : Bool := bracesBalancedAux s.data 0

/-- Modelled from the spec: a request value "with at least a tool name" —
a dict carrying the key `tool_name`. -/
def hasToolName (j : Json) : Bool :=
  match j with
  | .obj fields => hasKey fields "tool_name"
  | _ => false

/-! ## Concrete sample inputs used by witnesses and counterexamples -/

/-- A well-formed tool request: a dict with `tool_name` and `arguments`. -/
def sampleToolRequest : Json :=
  Json.obj [("tool_name", Json.str "search_repositories"), ("arguments", Json.obj [])]

/-- A model response carrying one fenced tool request. -/
def sampleToolResponse : String :=
  "```json\n\x7b\"tool_request\": \x7b\"tool_name\": \"t\", \"arguments\": \x7b\x7d\x7d\x7d\n```"

/-- An oracle whose follow-up calls all fail (reply `None`) while its
simplified-retry calls would answer; it exhibits that the retry is never
consulted. -/
def timeoutFollowUpOracle : LoopOracle :=
  { classify := fun _ => false
    followUp := fun _ _ => none
    retryCall := fun _ => some "LISTO" }

/-- A response with two well-formed fenced blocks and one malformed block
between them. -/
def twoBlockResponse : String :=
  "```json\n\x7b\"tool_request\": \x7b\"tool_name\": \"a\"\x7d\x7d\n```\nsome text\n" ++
    "```json\nnot json at all\n```\n" ++
    "```json\n\x7b\"tool_request\": \x7b\"tool_name\": \"b\", \"arguments\": \x7b\"q\": 1\x7d\x7d\x7d\n```"

/-- A fenced block whose decoded dict nests a request without a tool
name. -/
def noToolNameResponse : String := "```json\n\x7b\"tool_request\": \x7b\x7d\x7d\n```"

/-- A result whose indented serialization exceeds the 5000-character cap. -/
def oversizedResult : Json := Json.str (String.mk (List.replicate 5001 'a'))

/-- Accepted by the pre-check though its braces are not balanced. -/
def unbalancedAccepted : String := "tool_request \x7d\x7b"

/-! ## Helper lemmas -/

/-- A key absent from a dict looks up to nothing. -/
theorem lookupKey_eq_none_of_hasKey_false {fields : List (String × Json)} {k : String}
    (h : hasKey fields k = false) : lookupKey fields k = none := by
  induction fields with
  | nil => rfl
  | cons p rest ih =>
    obtain ⟨k', v⟩ := p
    simp only [hasKey, List.any_cons, Bool.or_eq_false_iff] at h
    simp only [lookupKey, h.1, Bool.false_eq_true, if_false]
    exact ih h.2

/-- A key present in a dict looks up to some value. -/
theorem lookupKey_isSome_of_hasKey {fields : List (String × Json)} {k : String}
    (h : hasKey fields k = true) : ∃ v, lookupKey fields k = some v := by
  induction fields with
  | nil => simp [hasKey] at h
  | cons p rest ih =>
    obtain ⟨k', v⟩ := p
    by_cases hk : (k' == k) = true
    · exact ⟨v, by simp [lookupKey, hk]⟩
    · simp only [hasKey, List.any_cons, Bool.or_eq_true] at h
      rcases h with h | h
      · exact absurd h hk
      · obtain ⟨u, hu⟩ := ih h
        exact ⟨u, by simp [lookupKey, hk, hu]⟩

/-- On a block that decodes to a dict or fails to decode, the method-1
block handler never aborts and contributes exactly the nested request of
the block, when there is one. -/
theorem m1ProcessBlock_good (content : String) (acc : List Json)
    (h : blockDecodesToObjOrFails content = true) :
    m1ProcessBlock content acc = .ok (acc ++ (blockRequest content).toList) := by
  by_cases hempty : (pyStrip content).data.isEmpty = true
  · have hdata : (pyStrip content).data = [] := by simpa using hempty
    have hload : jsonLoads (pyStrip content) = none := by
      unfold jsonLoads
      rw [hdata]
      rfl
    simp [m1ProcessBlock, hempty, blockRequest, hload]
  · unfold blockDecodesToObjOrFails at h
    unfold m1ProcessBlock blockRequest
    rw [if_neg hempty]
    cases hload : jsonLoads (pyStrip content) with
    | none => simp
    | some v =>
      rw [hload] at h
      cases v with
      | obj fields =>
        cases hk : hasKey fields "tool_request" with
        | false => simp [pyIn, hk, lookupKey_eq_none_of_hasKey_false hk]
        | true =>
          obtain ⟨u, hu⟩ := lookupKey_isSome_of_hasKey hk
          simp [pyIn, pyIndex, hk, hu]
      | null => simp at h
      | bool b => simp at h
      | num n => simp at h
      | str s => simp at h
      | arr items => simp at h

/-- The method-1 line scan equals the per-block map over the fenced
blocks, provided every fenced block decodes to a dict or fails to
decode. -/
theorem m1Lines_blocks :
    ∀ (lines : List String) (inJson : Bool) (cur : String) (acc : List Json),
      (∀ b ∈ fencedBlocksAux lines inJson cur, blockDecodesToObjOrFails b = true) →
      m1Lines lines inJson cur acc =
        .ok (acc ++ (fencedBlocksAux lines inJson cur).filterMap blockRequest) := by
  intro lines
  induction lines with
  | nil => intro inJson cur acc h; simp [m1Lines, fencedBlocksAux]
  | cons line rest ih =>
    intro inJson cur acc h
    by_cases h1 : strContains (pyLower line) "```json" = true
    · rw [fencedBlocksAux, if_pos h1] at h ⊢
      rw [m1Lines, if_pos h1]
      exact ih true "" acc h
    · cases inJson with
      | false =>
        rw [fencedBlocksAux, if_neg h1, if_neg (by simp), if_neg (by simp)] at h ⊢
        rw [m1Lines, if_neg h1, if_neg (by simp), if_neg (by simp)]
        exact ih false cur acc h
      | true =>
        by_cases h2 : strContains line "```" = true
        · rw [fencedBlocksAux, if_neg h1, if_pos (by simp [h2])] at h ⊢
          rw [m1Lines, if_neg h1, if_pos (by simp [h2])]
          have hcur : blockDecodesToObjOrFails cur = true := h cur (by simp)
          rw [m1ProcessBlock_good cur acc hcur]
          dsimp only
          rw [ih false "" (acc ++ (blockRequest cur).toList)
            (fun b hb => h b (List.mem_cons_of_mem _ hb))]
          cases hbr : blockRequest cur <;> simp [hbr, List.filterMap_cons]
        · rw [fencedBlocksAux, if_neg h1, if_neg (by simp [h2]), if_pos rfl] at h ⊢
          rw [m1Lines, if_neg h1, if_neg (by simp [h2]), if_pos rfl]
          exact ih true (cur ++ line ++ "\n") acc h

/-- When `afterFollowUp` exits the loop, the exit record carries the
current iteration number and an unchanged retry count. -/
theorem afterFollowUp_exit_spec (maxIterations iteration' tools' retries : Nat)
    (resp retryReply : Option String) (result : LoopResult)
    (heq : afterFollowUp maxIterations iteration' tools' retries resp retryReply =
      .exit result) :
    result.iterations = iteration' ∧ result.retriesAttempted = retries := by
  cases resp with
  | none => simp [afterFollowUp, pyOptTruthy] at heq; simp [← heq]
  | some r =>
    by_cases hb : (!pyStrTruthy r || strContains (pyUpper r) "LISTO") = true
    · simp [afterFollowUp, pyOptTruthy, hb] at heq
      simp [← heq]
    · simp [afterFollowUp, pyOptTruthy, hb] at heq

/-- When `afterFollowUp` continues the loop, the retry count is
unchanged: the simplified-retry branch, the only place that increments
it, is unreachable because an absent reply already fires the break of
line 313. -/
theorem afterFollowUp_goOn_spec (maxIterations iteration' tools' retries : Nat)
    (resp retryReply : Option String) (retries' : Nat) (cur' : Option String)
    (heq : afterFollowUp maxIterations iteration' tools' retries resp retryReply =
      .goOn retries' cur') :
    retries' = retries := by
  cases resp with
  | none => simp [afterFollowUp, pyOptTruthy] at heq
  | some r =>
    by_cases hb : (!pyStrTruthy r || strContains (pyUpper r) "LISTO") = true
    · simp [afterFollowUp, pyOptTruthy, hb] at heq
    · simp [afterFollowUp, pyOptTruthy, hb] at heq
      exact heq.1.symm

/-- Loop invariant: the iteration counter never passes the budget and the
retry counter never moves. -/
theorem runLoopAux_spec (o : LoopOracle) (maxIterations : Nat) :
    ∀ fuel iteration tools retries cur,
      iteration ≤ maxIterations →
      (runLoopAux o maxIterations fuel iteration tools retries cur).iterations ≤ maxIterations ∧
        (runLoopAux o maxIterations fuel iteration tools retries cur).retriesAttempted =
          retries := by
  intro fuel
  induction fuel with
  | zero =>
    intro iteration tools retries cur h
    exact ⟨h, rfl⟩
  | succ fuel ih =>
    intro iteration tools retries cur h
    rw [runLoopAux]
    split
    next hcond =>
      have hlt : iteration < maxIterations :=
        of_decide_eq_true ((Bool.and_eq_true _ _).mp hcond).1
      dsimp only
      split
      next => exact ⟨hlt, rfl⟩
      next =>
        split
        next result heq =>
          obtain ⟨h1, h2⟩ := afterFollowUp_exit_spec _ _ _ _ _ _ _ heq
          rw [h1, h2]
          exact ⟨hlt, rfl⟩
        next retries' cur' heq =>
          have h1 := afterFollowUp_goOn_spec _ _ _ _ _ _ _ _ heq
          rw [h1]
          exact ih _ _ _ _ hlt
    next hcond =>
      exact ⟨h, rfl⟩

/-- The budget and retry facts specialized to the session entry point. -/
theorem runLoop_spec (o : LoopOracle) (response : String) :
    (runLoop o response).iterations ≤ 10 ∧ (runLoop o response).retriesAttempted = 0 :=
  runLoopAux_spec o 10 10 0 0 0 (some response) (by decide)

/-- Occurrence of a one-character pattern is membership. -/
theorem listContains_singleton (cs : List Char) (c : Char) :
    listContains cs [c] = true ↔ c ∈ cs := by
  induction cs with
  | nil => simp [listContains, listStartsWith]
  | cons d t ih =>
    rw [listContains]
    simp [listStartsWith, ih, List.mem_cons]
    constructor
    · rintro (h | h)
      · exact Or.inl h.symm
      · exact Or.inr h
    · rintro (h | h)
      · exact Or.inl h.symm
      · exact Or.inr h

/-! ## Heap lemmas for the framing theorem -/

theorem setStore_getD_ne (store : List (List Msg)) :
    ∀ (t r : Nat) (v : List Msg), r ≠ t →
      (setStore store t v).getD r [] = store.getD r [] := by
  induction store with
  | nil => intro t r v _; cases t <;> rfl
  | cons x rest ih =>
    intro t r v hne
    cases t with
    | zero =>
      cases r with
      | zero => exact absurd rfl hne
      | succ r' => rfl
    | succ t' =>
      cases r with
      | zero => rfl
      | succ r' =>
        simp only [setStore, List.getD_cons_succ]
        exact ih t' r' v (fun he => hne (by rw [he]))

theorem setStore_length (store : List (List Msg)) :
    ∀ (t : Nat) (v : List Msg), (setStore store t v).length = store.length := by
  induction store with
  | nil => intro t v; rfl
  | cons x rest ih =>
    intro t v
    cases t with
    | zero => rfl
    | succ t' => simp [setStore, ih]

theorem readRef_appendRef_ne (h : Heap) (t : Nat) (m : Msg) (r : Nat) (hne : r ≠ t) :
    readRef (appendRef h t m) r = readRef h r :=
  setStore_getD_ne h.store t r _ hne

theorem appendRef_length (h : Heap) (t : Nat) (m : Msg) :
    (appendRef h t m).store.length = h.store.length :=
  setStore_length h.store t _

theorem getD_append_left (l l' : List (List Msg)) :
    ∀ r, r < l.length → (l ++ l').getD r [] = l.getD r [] := by
  induction l with
  | nil => intro r hr; exact absurd hr (by simp)
  | cons x rest ih =>
    intro r hr
    cases r with
    | zero => rfl
    | succ r' =>
      simp only [List.cons_append, List.getD_cons_succ]
      exact ih r' (by simpa using hr)

theorem readRef_extend (h : Heap) (l : List (List Msg)) (r : Nat)
    (hr : r < h.store.length) : readRef ⟨h.store ++ l⟩ r = readRef h r :=
  getD_append_left h.store l r hr

theorem readRef_alloc (h : Heap) (l : List Msg) (r : Nat) (hr : r < h.store.length) :
    readRef (alloc h l).2 r = readRef h r :=
  getD_append_left h.store [l] r hr

theorem readRef_appendAll_ne (ms : List Msg) (t : Nat) :
    ∀ (h : Heap) (r : Nat), r ≠ t →
      readRef (ms.foldl (fun hh m => appendRef hh t m) h) r = readRef h r := by
  induction ms with
  | nil => intro h r _; rfl
  | cons m rest ih =>
    intro h r hne
    rw [List.foldl_cons]
    rw [ih (appendRef h t m) r hne]
    exact readRef_appendRef_ne h t m r hne

theorem appendAll_length (ms : List Msg) (t : Nat) :
    ∀ (h : Heap), (ms.foldl (fun hh m => appendRef hh t m) h).store.length =
      h.store.length := by
  induction ms with
  | nil => intro h; rfl
  | cons m rest ih =>
    intro h
    rw [List.foldl_cons, ih, appendRef_length]

theorem runFollowUps_read (iters : List (FollowUpKind × Msg × Msg)) :
    ∀ (h : Heap) (messagesRef r : Nat), r < h.store.length →
      readRef (runFollowUps h messagesRef iters) r = readRef h r := by
  induction iters with
  | nil => intro h messagesRef r _; rfl
  | cons it rest ih =>
    intro h messagesRef r hr
    obtain ⟨kind, aMsg, uMsg⟩ := it
    rw [runFollowUps]
    dsimp only [copyRef]
    have hfresh : r ≠ h.store.length := Nat.ne_of_lt hr
    have h1 : readRef (alloc h (readRef h messagesRef)).2 r = readRef h r :=
      readRef_alloc h _ r hr
    rw [ih _ _ r (by
      rw [appendAll_length]
      simp [alloc]
      omega)]
    rw [readRef_appendAll_ne _ _ _ r (by simpa [alloc] using hfresh)]
    exact h1

theorem runFollowUps_length (iters : List (FollowUpKind × Msg × Msg)) :
    ∀ (h : Heap) (messagesRef : Nat),
      h.store.length ≤ (runFollowUps h messagesRef iters).store.length := by
  induction iters with
  | nil => intro h messagesRef; exact Nat.le_refl _
  | cons it rest ih =>
    intro h messagesRef
    obtain ⟨kind, aMsg, uMsg⟩ := it
    rw [runFollowUps]
    dsimp only [copyRef]
    refine Nat.le_trans ?_ (ih _ _)
    rw [appendAll_length]
    simp [alloc]

/-- C10 (frame effect): one `chat_with_tools` session leaves the caller's
conversation-history list unchanged.  The session copies the history into
`messages` and only ever appends to that copy, to per-iteration copies of
it, and to the final-synthesis copy; for every initial heap, every valid
history reference, every template sequence and arbitrary message
contents, reading the history reference after the session yields exactly
what it held before. -/
theorem chat_with_tools_frame (h0 : Heap) (historyRef : Nat) (toolsAvailable : Bool)
    (sysMsg userMsg : Msg) (iters : List (FollowUpKind × Msg × Msg))
    (finalMsg : Option Msg) (hr : historyRef < h0.store.length) :
    readRef (chat_with_tools_heap h0 historyRef toolsAvailable sysMsg userMsg iters finalMsg)
        historyRef = readRef h0 historyRef := by
  have hne : historyRef ≠ h0.store.length := Nat.ne_of_lt hr
  unfold chat_with_tools_heap
  dsimp only [copyRef, alloc]
  have hlen1 : ∀ m1 m2 : Msg,
      (appendRef (appendRef (⟨h0.store ++ [readRef h0 historyRef]⟩ : Heap) h0.store.length m1)
        h0.store.length m2).store.length = h0.store.length + 1 := by
    intro m1 m2
    rw [appendRef_length, appendRef_length]
    simp
  have hread3 : ∀ m1 m2 : Msg,
      readRef (appendRef (appendRef (⟨h0.store ++ [readRef h0 historyRef]⟩ : Heap)
        h0.store.length m1) h0.store.length m2) historyRef = readRef h0 historyRef := by
    intro m1 m2
    rw [readRef_appendRef_ne _ _ _ _ hne, readRef_appendRef_ne _ _ _ _ hne]
    exact getD_append_left h0.store _ historyRef hr
  cases toolsAvailable with
  | true =>
    rw [if_pos rfl]
    cases finalMsg with
    | none =>
      rw [runFollowUps_read _ _ _ _ (by rw [hlen1]; omega)]
      exact hread3 sysMsg userMsg
    | some m =>
      dsimp only [copyRef, alloc]
      have hlt4 : historyRef <
          (runFollowUps (appendRef (appendRef (⟨h0.store ++ [readRef h0 historyRef]⟩ : Heap)
            h0.store.length sysMsg) h0.store.length userMsg) h0.store.length iters).store.length := by
        have := runFollowUps_length iters
          (appendRef (appendRef (⟨h0.store ++ [readRef h0 historyRef]⟩ : Heap)
            h0.store.length sysMsg) h0.store.length userMsg) h0.store.length
        rw [hlen1] at this
        omega
      rw [readRef_appendRef_ne _ _ _ _ (Nat.ne_of_lt hlt4)]
      rw [readRef_extend _ _ historyRef hlt4]
      rw [runFollowUps_read _ _ _ _ (by rw [hlen1]; omega)]
      exact hread3 sysMsg userMsg
  | false =>
    rw [if_neg (by simp)]
    have hlen1' : ∀ m2 : Msg,
        (appendRef (⟨h0.store ++ [readRef h0 historyRef]⟩ : Heap) h0.store.length m2).store.length
          = h0.store.length + 1 := by
      intro m2
      rw [appendRef_length]
      simp
    have hread3' : ∀ m2 : Msg,
        readRef (appendRef (⟨h0.store ++ [readRef h0 historyRef]⟩ : Heap)
          h0.store.length m2) historyRef = readRef h0 historyRef := by
      intro m2
      rw [readRef_appendRef_ne _ _ _ _ hne]
      exact getD_append_left h0.store _ historyRef hr
    cases finalMsg with
    | none =>
      rw [runFollowUps_read _ _ _ _ (by rw [hlen1']; omega)]
      exact hread3' userMsg
    | some m =>
      dsimp only [copyRef, alloc]
      have hlt4 : historyRef <
          (runFollowUps (appendRef (⟨h0.store ++ [readRef h0 historyRef]⟩ : Heap)
            h0.store.length userMsg) h0.store.length iters).store.length := by
        have := runFollowUps_length iters
          (appendRef (⟨h0.store ++ [readRef h0 historyRef]⟩ : Heap)
            h0.store.length userMsg) h0.store.length
        rw [hlen1'] at this
        omega
      rw [readRef_appendRef_ne _ _ _ _ (Nat.ne_of_lt hlt4)]
      rw [readRef_extend _ _ historyRef hlt4]
      rw [runFollowUps_read _ _ _ _ (by rw [hlen1']; omega)]
      exact hread3' userMsg

/-! ## Claim theorems, witnesses and counterexamples -/

/-- C4 (amended): fenced-block extraction yields one request per fenced
structured block whose stripped content decodes to a dict containing the
nested `tool_request` field — whether or not the nested request carries a
tool name — in source order, and blocks that fail to decode (or decode to
a dict without the field) are skipped without aborting the rest.  Stated
for responses whose fenced blocks all decode to dicts or fail to decode,
and with at least one request found, so that the later extraction
methods do not run. -/
theorem C4_fenced_extraction_amended (response : String)
    (hgood : ∀ b ∈ fencedBlocks response, blockDecodesToObjOrFails b = true)
    (hne : ((fencedBlocks response).filterMap blockRequest).isEmpty = false) :
    parse_all_tool_requests response = (fencedBlocks response).filterMap blockRequest := by
  unfold parse_all_tool_requests
  rw [m1Lines_blocks (pySplitLines response) false "" [] (by simpa [fencedBlocks] using hgood)]
  dsimp only
  rw [List.nil_append]
  have hne' : (List.filterMap blockRequest
      (fencedBlocksAux (pySplitLines response) false "")).isEmpty = false := hne
  rw [if_neg (by simp [hne'])]
  rfl

/-- C4 witness: a response with two well-formed fenced blocks around one
malformed block yields exactly the two nested requests, in source
order. -/
theorem C4_fenced_extraction_witness :
    parse_all_tool_requests twoBlockResponse =
      (fencedBlocks twoBlockResponse).filterMap blockRequest ∧
      (fencedBlocks twoBlockResponse).filterMap blockRequest =
        [Json.obj [("tool_name", Json.str "a")],
         Json.obj [("tool_name", Json.str "b"), ("arguments", Json.obj [("q", Json.num 1)])]] :=
  ⟨C4_fenced_extraction_amended twoBlockResponse (by decide) (by decide), by rfl⟩

/-- C4 counterexample: a fenced block whose decoded dict nests an empty
request is not skipped — extraction yields that request even though it
has no tool name, refuting the claim that a block lacking a tool name
yields no request. -/
theorem C4_no_tool_name_yields_request :
    parse_all_tool_requests noToolNameResponse = [Json.obj []] ∧
      hasToolName (Json.obj []) = false :=
  ⟨rfl, rfl⟩

/-- C5: whenever the classification call returns a (truthy) reply and the
request is well formed, the pair is classified as an error exactly when
the error token occurs in the stripped, upper-cased reply; in particular
a reply containing neither token is classified as success. -/
theorem C5_error_token_classification (tr result : Json) (reply : String)
    (hwf : wellFormedToolRequest tr = true) (hne : pyStrTruthy reply = true) :
    llm_evaluate_result tr result (some reply) =
      strContains (pyUpper (pyStrip reply)) "ERROR" := by
  simp [llm_evaluate_result, hwf, hne]

/-- C5 witness: a success-token reply classifies as success and a reply
containing the error token classifies as error. -/
theorem C5_error_token_witness :
    llm_evaluate_result sampleToolRequest (Json.arr []) (some "EXITO") = false ∧
      llm_evaluate_result sampleToolRequest (Json.arr []) (some " hubo un error ") = true := by
  constructor
  · rw [C5_error_token_classification sampleToolRequest (Json.arr []) "EXITO" (by rfl) (by rfl)]
    rfl
  · rw [C5_error_token_classification sampleToolRequest (Json.arr []) " hubo un error "
      (by rfl) (by rfl)]
    rfl

/-- C6 (amended): the eight-indicator scan runs only when the evaluation
raises (malformed request); when the classification call merely returns
no reply (or an empty one), the fallback classifies dict results by the
`error` key or the `missing` / `not found` substrings, and every non-dict
result as success. -/
theorem C6_fallback_amended (tr result : Json) (reply : Option String) :
    (wellFormedToolRequest tr = false →
      llm_evaluate_result tr result reply = errorScanFallback result) ∧
      (wellFormedToolRequest tr = true → pyOptTruthy reply = false →
        llm_evaluate_result tr result reply = manualFallback result) := by
  constructor
  · intro hwf
    simp [llm_evaluate_result, hwf]
  · intro hwf hft
    cases reply with
    | none => simp [llm_evaluate_result, hwf]
    | some r =>
      simp only [pyOptTruthy] at hft
      simp [llm_evaluate_result, hwf, hft]

/-- C6 witness: with a malformed request the indicator scan fires even
though the reply said success; with a well-formed request and no reply, a
non-dict result is classified as success. -/
theorem C6_fallback_witness :
    llm_evaluate_result (Json.num 3) (Json.str "denied") (some "EXITO") = true ∧
      llm_evaluate_result sampleToolRequest (Json.str "denied") none = false := by
  constructor
  · rw [(C6_fallback_amended (Json.num 3) (Json.str "denied") (some "EXITO")).1 (by rfl)]
    rfl
  · rw [(C6_fallback_amended sampleToolRequest (Json.str "denied") none).2 (by rfl) (by rfl)]
    rfl

/-- C6 counterexample: the classification call returns nothing on a
result whose stringification contains the indicator `failed`; the claim
says the eight-substring scan classifies it as an error, but the code
classifies it as success because the `None`-reply fallback ignores
non-dict results. -/
theorem C6_fallback_mismatch :
    llm_evaluate_result sampleToolRequest (Json.str "failed") none = false ∧
      errorScanFallback (Json.str "failed") = true :=
  ⟨rfl, rfl⟩

/-- C7: a tool result whose indented serialization stays within the
5000-character cap is stored unchanged; one exceeding the cap is replaced
by a dict holding the first 5000 characters of the serialization plus the
literal truncation marker, and an `original_length` field recording the
length of the default serialization of the original result. -/
theorem C7_result_truncation (result : Json) :
    ((dumpsIChars 0 result).length ≤ 5000 → limit_tool_result result = result) ∧
      (5000 < (dumpsIChars 0 result).length →
        limit_tool_result result =
          Json.obj
            [("truncated_result",
               Json.str (String.mk ((dumpsIChars 0 result).take 5000 ++ truncMarker.data))),
             ("original_length", Json.num ((dumpsCChars result).length : Int))] ∧
          ∃ rest, dumpsIChars 0 result = (dumpsIChars 0 result).take 5000 ++ rest) := by
  constructor
  · intro h
    unfold limit_tool_result
    dsimp only
    rw [if_neg (by omega)]
  · intro h
    refine ⟨?_, (dumpsIChars 0 result).drop 5000, (List.take_append_drop _ _).symm⟩
    unfold limit_tool_result
    dsimp only
    rw [if_pos h]

/-- Escaping one character yields at least one character. -/
theorem escChar_length_pos (c : Char) : 1 ≤ (escChar c).length := by
  unfold escChar
  split_ifs <;> simp

/-- Escaping never shortens a string. -/
theorem length_le_flatMap_escChar (cs : List Char) :
    cs.length ≤ (cs.flatMap escChar).length := by
  induction cs with
  | nil => simp
  | cons c rest ih =>
    have := escChar_length_pos c
    simp only [List.flatMap_cons, List.length_append, List.length_cons]
    omega

/-- The oversized sample result serializes beyond the cap. -/
theorem oversizedResult_length : 5000 < (dumpsIChars 0 oversizedResult).length := by
  have hq : dumpsIChars 0 oversizedResult =
      '"' :: (List.replicate 5001 'a').flatMap escChar ++ ['"'] := rfl
  have h1 := length_le_flatMap_escChar (List.replicate 5001 'a')
  rw [List.length_replicate] at h1
  rw [hq]
  simp only [List.length_cons, List.length_append]
  omega

/-- C7 witness: a small result is stored unchanged; the oversized sample
is stored as the truncated-preview dict. -/
theorem C7_result_truncation_witness :
    limit_tool_result (Json.num 7) = Json.num 7 ∧
      limit_tool_result oversizedResult =
        Json.obj
          [("truncated_result",
             Json.str (String.mk ((dumpsIChars 0 oversizedResult).take 5000 ++ truncMarker.data))),
           ("original_length", Json.num ((dumpsCChars oversizedResult).length : Int))] := by
  constructor
  · exact (C7_result_truncation (Json.num 7)).1 (by decide)
  · exact ((C7_result_truncation oversizedResult).2 oversizedResult_length).1

/-- C8 (amended): the pre-check accepts a text exactly when it contains
the `tool_request` marker together with at least one opening and one
closing brace character — mere presence, not balance — or contains the
```` ```json ```` fence opener. -/
theorem C8_precheck_amended (s : String) :
    is_tool_request s = true ↔
      ((strContains s "tool_request" = true ∧ Char.ofNat 123 ∈ s.data ∧
          Char.ofNat 125 ∈ s.data) ∨
        strContains s "```json" = true) := by
  unfold is_tool_request
  rw [show strContains s "\x7b" = listContains s.data [Char.ofNat 123] from rfl,
      show strContains s "\x7d" = listContains s.data [Char.ofNat 125] from rfl]
  simp only [Bool.or_eq_true, Bool.and_eq_true, listContains_singleton]
  tauto

/-- C8 witness: a response with a fenced block opener is accepted. -/
theorem C8_precheck_witness : is_tool_request sampleToolResponse = true :=
  (C8_precheck_amended sampleToolResponse).mpr (Or.inr (by decide))

/-- C8 counterexample: a text containing the marker and a closing brace
before an opening brace is accepted by the pre-check although its braces
are not balanced and it has no fenced block, refuting the only-if
direction of the claim. -/
theorem C8_unbalanced_accepted_counterexample :
    is_tool_request unbalancedAccepted = true ∧ bracesBalanced unbalancedAccepted = false ∧
      strContains unbalancedAccepted "```json" = false :=
  ⟨rfl, rfl, rfl⟩

/-- C9: `send_update` is a total function of the transport outcome — no
outcome raises past its boundary — returning `true` exactly on a delivery
with a 2xx status; timeouts, non-success statuses and other transport
errors are all reported as `false`. -/
theorem C9_send_update_total (o : PostOutcome) :
    send_update o = true ↔ ∃ code, o = .response code ∧ 200 ≤ code ∧ code ≤ 299 := by
  cases o with
  | response code =>
    by_cases h : 200 ≤ code ∧ code ≤ 299
    · simp only [send_update, send_update_attempt, if_pos h]
      refine ⟨fun _ => ⟨code, rfl, h.1, h.2⟩, fun _ => ?_⟩
      trivial
    · simp only [send_update, send_update_attempt, if_neg h]
      constructor
      · intro hfalse
        exact Bool.noConfusion hfalse
      · rintro ⟨c, hc, h1, h2⟩
        cases hc
        exact absurd ⟨h1, h2⟩ h
  | timeout =>
    constructor
    · intro hfalse
      exact Bool.noConfusion hfalse
    · rintro ⟨c, hc, _, _⟩
      cases hc
  | connectionError =>
    constructor
    · intro hfalse
      exact Bool.noConfusion hfalse
    · rintro ⟨c, hc, _, _⟩
      cases hc

/-- C9 witness: a 204 delivery reports `true`. -/
theorem C9_send_update_witness : send_update (.response 204) = true :=
  (C9_send_update_total (.response 204)).mpr ⟨204, rfl, by decide, by decide⟩

/-- C1 (amended): every background coordinador session execution attempts
at least one terminal notification (`isComplete = true`); exactly two are
attempted whenever service initialization succeeds — one from the
streaming wrapper, one from the supervisor — and exactly one when
initialization fails. -/
theorem C1_terminal_notification_amended (initOutcome : Except String Unit)
    (agent : Except String String) :
    1 ≤ terminalCount (process_coordinador_feedback_async initOutcome agent) ∧
      (initOutcome = .ok () →
        terminalCount (process_coordinador_feedback_async initOutcome agent) = 2) ∧
      ∀ e, initOutcome = .error e →
        terminalCount (process_coordinador_feedback_async initOutcome agent) = 1 := by
  cases initOutcome with
  | ok u =>
    cases u
    cases agent <;>
      simp [process_coordinador_feedback_async, feedback_coordinador_streaming,
        run_with_streaming, terminalCount]
  | error e =>
    simp [process_coordinador_feedback_async, feedback_coordinador_streaming, terminalCount]

/-- C1 counterexample: a session whose initialization and agent run both
succeed sends two terminal notifications with `isComplete = true`,
refuting the claim that exactly one is sent. -/
theorem C1_success_two_terminals :
    terminalCount (process_coordinador_feedback_async (.ok ()) (.ok "análisis completado")) = 2 :=
  rfl

/-- C1 witness: a session whose initialization fails attempts exactly one
terminal notification. -/
theorem C1_terminal_notification_witness :
    terminalCount
      (process_coordinador_feedback_async (.error "fallo de conexión") (.ok "r")) = 1 :=
  (C1_terminal_notification_amended (.error "fallo de conexión") (.ok "r")).2.2
    "fallo de conexión" rfl

/-- C2: for every oracle (hence every sequence of model replies and tool
verdicts) and every first response, the orchestration loop executes at
most 10 iterations: the iteration counter never exceeds the budget. -/
theorem C2_iteration_budget (o : LoopOracle) (response : String) :
    (runLoop o response).iterations ≤ 10 :=
  (runLoop_spec o response).1

/-- C3 (code-bug evidence): the simplified-retry branch of lines 316-331
can never run — for every oracle and input the loop finishes with zero
retry attempts, because the break of line 313 already fires on any empty
follow-up reply; concretely, when the first follow-up call returns no
content the loop ends after that iteration with no reply and no retry,
although the retry oracle had an answer ready. -/
theorem C3_simplified_retry_never_runs :
    (∀ (o : LoopOracle) (response : String), (runLoop o response).retriesAttempted = 0) ∧
      runLoop timeoutFollowUpOracle sampleToolResponse =
        { iterations := 1, retriesAttempted := 0, toolCalls := 1, final := none } :=
  ⟨fun o response => (runLoop_spec o response).2, rfl⟩

/-- C10 witness: a concrete two-iteration session with a final synthesis
leaves a one-element caller history untouched. -/
theorem chat_with_tools_frame_witness :
    readRef (chat_with_tools_heap ⟨[[("user", "hola")]]⟩ 0 true ("system", "preamble")
      ("user", "consulta")
      [(FollowUpKind.corrective, ("assistant", "nota"), ("user", "corrige")),
       (FollowUpKind.alternative, ("assistant", ""), ("user", "alternativa"))]
      (some ("user", "sintetiza"))) 0 = [("user", "hola")] :=
  (chat_with_tools_frame ⟨[[("user", "hola")]]⟩ 0 true ("system", "preamble")
    ("user", "consulta")
    [(FollowUpKind.corrective, ("assistant", "nota"), ("user", "corrige")),
     (FollowUpKind.alternative, ("assistant", ""), ("user", "alternativa"))]
    (some ("user", "sintetiza")) (by decide)).trans rfl

end LlmBack
